import Mathlib

/-!
Verification development for the AutoWebBuilder repository.

The Python source is shallowly embedded: pure helpers become Lean
functions, the mutable dictionaries of `AutoContentManager` and
`BingImageScraper` become explicit state records threaded through the
operations, and the background posting loop becomes a step function on a
worker-state record driven by a list of per-cycle inputs (current date
plus the responses of the external generation collaborators).
-/

namespace AutoWebBuilder

/-! ## Image model (`utils/bing_image_scraper.py`)

One Bing image result dict, with the fields read by `score_images` and
`remove_duplicates`.  Textual fields that the code lowercases and scans
are kept as character lists.  `relevance_score` starts absent (`none`);
`score_images` writes it into every record it touches, which models the
in-place `image['relevance_score'] = score` dict update.
-/

structure BingImage where
  url : String
  name : List Char
  width : Nat
  height : Nat
  encoding_format : List Char
  is_family_friendly : Bool
  relevance_score : Option Nat := none
  deriving Repr, DecidableEq

/-- `s.lower()` on a Python string, on the character-list model. -/
def lowerChars (s : List Char) : List Char := s.map Char.toLower

/-- The format allow-list `['jpeg', 'jpg', 'png', 'webp']`. -/
def modernFormats : List (List Char) :=
  ["jpeg".toList, "jpg".toList, "png".toList, "webp".toList]

namespace BingImageScraper

/-- The score computed by the loop body of
`BingImageScraper.score_images`: +10 if the lowercased keyword occurs in
the lowercased name, +5 for landscape (`width > height`), +5 for
`width >= 800`, +3 if the lowercased encoding format is on the modern
allow-list, +2 if the image is flagged family friendly. -/
def imageScore (keyword : List Char) (img : BingImage) : Nat :=
  (if List.IsInfix (lowerChars keyword) (lowerChars img.name) then 10 else 0) +
  (if img.height < img.width then 5 else 0) +
  (if 800 ≤ img.width then 5 else 0) +
  (if lowerChars img.encoding_format ∈ modernFormats then 3 else 0) +
  (if img.is_family_friendly then 2 else 0)

/-- The in-place `image['relevance_score'] = score` update performed on
each record of the input list. -/
def setRelevanceScore (keyword : List Char) (img : BingImage) : BingImage :=
  { img with relevance_score := some (imageScore keyword img) }

/-- The sort key `x.get('relevance_score', 0)`. -/
def relKey (img : BingImage) : Nat := img.relevance_score.getD 0

/-- The ordering used by `sorted(images, key=..., reverse=True)`:
`a` may stay before `b` exactly when the key of `b` is at most the key
of `a`.  A stable sort under this relation is precisely the semantics of
the stable descending Python sort. -/
def scoreGE (a b : BingImage) : Prop := relKey b ≤ relKey a

instance : DecidableRel scoreGE := fun _ _ => Nat.decLe _ _

instance : IsTotal BingImage scoreGE := ⟨fun a b => Nat.le_total (relKey b) (relKey a)⟩

instance : IsTrans BingImage scoreGE := ⟨fun _ _ _ h h2 => Nat.le_trans h2 h⟩

/-- `BingImageScraper.score_images(images, keyword)`.  The first
component is the returned, descending-sorted list; the second component
is the state of the caller-supplied list after the call (each record has
been mutated to carry its `relevance_score`).  Python `sorted` with
`reverse=True` is a stable descending sort, embedded as the stable
insertion sort under `scoreGE`. -/
def score_images (images : List BingImage) (keyword : List Char) :
    List BingImage × List BingImage :=
  let scored := images.map (setRelevanceScore keyword)
  (List.insertionSort scoreGE scored, scored)

/-- `BingImageScraper.remove_duplicates`, generalized over the set of
already-seen URLs (the Python `seen_urls` set). -/
def removeDuplicatesAux (seen : List String) : List BingImage → List BingImage
  | [] => []
  | img :: rest =>
    if img.url ∈ seen then removeDuplicatesAux seen rest
    else img :: removeDuplicatesAux (img.url :: seen) rest

/-- `BingImageScraper.remove_duplicates(images)`: keep an image when its
URL has not appeared before. -/
def remove_duplicates (images : List BingImage) : List BingImage :=
  removeDuplicatesAux [] images

end BingImageScraper

namespace BingImageSearch

/-- `BingImageSearch.remove_duplicates`, generalized over the seen set.
This variant additionally requires the URL to be truthy (non-empty):
`if url and url not in seen_urls`. -/
def removeDuplicatesAux (seen : List String) : List BingImage → List BingImage
  | [] => []
  | img :: rest =>
    if img.url ≠ "" ∧ img.url ∉ seen then
      img :: removeDuplicatesAux (img.url :: seen) rest
    else removeDuplicatesAux seen rest

/-- `BingImageSearch.remove_duplicates(images)`. -/
def remove_duplicates (images : List BingImage) : List BingImage :=
  removeDuplicatesAux [] images

end BingImageSearch

namespace BingImageScraper

/-! ## Credential pool state (`utils/bing_image_scraper.py`)

The mutable attributes of `BingImageScraper` that drive key rotation.
Request timestamps are integers (seconds); `request_counts` is total
with default `[]`, which models `dict.get(key, [])`. -/

structure ScraperState where
  api_keys : List String
  current_key_index : Nat
  request_counts : String → List Int
  max_requests_per_hour : Int
  deriving Inhabited

/-- `get_current_api_key`: `None` when the key list is empty, else the
entry at the round-robin cursor. -/
def get_current_api_key (s : ScraperState) : Option String :=
  if s.api_keys.isEmpty then none else s.api_keys.get? s.current_key_index

/-- `rotate_api_key`: advance the cursor modulo the pool size, but only
when more than one key is configured. -/
def rotate_api_key (s : ScraperState) : ScraperState :=
  if 1 < s.api_keys.length then
    { s with current_key_index := (s.current_key_index + 1) % s.api_keys.length }
  else s

/-- `check_rate_limit`, at wall-clock time `now`.  Prunes the current
key's log to the trailing hour, then reports whether the pruned count
has reached `max_requests_per_hour - 10` (the hard-coded safety buffer
of 10 requests).  Returns the flag and the state after pruning. -/
def check_rate_limit (s : ScraperState) (now : Int) : Bool × ScraperState :=
  match get_current_api_key s with
  | none => (false, s)
  | some key =>
    let pruned := (s.request_counts key).filter (fun t => now - 3600 < t)
    let s1 := { s with request_counts := fun k =>
      if k = key then pruned else s.request_counts k }
    ((s1.request_counts key).length ≥ s.max_requests_per_hour - 10, s1)

/-- The credential-selection prefix of `search_images`: check the rate
limit, rotate if it reports pressure, and hand back the key that the
subsequent HTTP request will use together with the state at the moment
of the call. -/
def searchImagesKey (s : ScraperState) (now : Int) : Option String × ScraperState :=
  let lim := check_rate_limit s now
  let s2 := if lim.1 then rotate_api_key lim.2 else lim.2
  (get_current_api_key s2, s2)

/-- `record_request`: append a timestamp to the current key's log;
performed only after the remote call succeeded. -/
def record_request (s : ScraperState) (now : Int) : ScraperState :=
  match get_current_api_key s with
  | none => s
  | some key =>
    { s with request_counts := fun k =>
        if k = key then s.request_counts k ++ [now] else s.request_counts k }

end BingImageScraper

/-! ## Manager state (`utils/auto_content_manager.py`)

The mutable dictionaries of `AutoContentManager`, plus a ghost field
`workers` counting, per domain, the worker loops that have been spawned
and have not yet observed a false active flag and exited.  Dictionary
membership is modelled with `Option`. -/

/-- One queued article, with the fields of `complete_article` that the
scheduler claims are about. -/
structure ContentRecord where
  title : String
  content : String
  meta_description : String
  keywords : List String
  category : String
  domain : String
  auto_generated : Bool
  deriving Repr, DecidableEq

/-- Result of a manager operation: Python returns either a
`{"success": True, ...}` dict or an `{"error": msg}` dict. -/
inductive OpResult where
  | success : OpResult
  | error : String → OpResult
  deriving Repr, DecidableEq

structure ManagerState where
  auto_posting_active : String → Option Bool
  posting_threads : String → Bool
  content_queue : String → Option (List ContentRecord)
  workers : String → Nat

/-- The state of a fresh `AutoContentManager`: all dictionaries empty,
no worker loops. -/
def initManager : ManagerState where
  auto_posting_active := fun _ => none
  posting_threads := fun _ => false
  content_queue := fun _ => none
  workers := fun _ => 0

/-- `start_auto_posting(domain, settings)`: reject when the active flag
is present and true; otherwise set the flag, spawn one worker thread and
remember it. -/
def start_auto_posting (s : ManagerState) (domain : String) :
    OpResult × ManagerState :=
  if (s.auto_posting_active domain).getD false then
    (OpResult.error "Auto posting already active for this domain", s)
  else
    (OpResult.success,
      { s with
        auto_posting_active := fun d =>
          if d = domain then some true else s.auto_posting_active d
        posting_threads := fun d =>
          if d = domain then true else s.posting_threads d
        workers := fun d =>
          if d = domain then s.workers d + 1 else s.workers d })

/-- `stop_auto_posting(domain)`: error when the domain was never
registered in `auto_posting_active`; otherwise set the flag to false
(whatever its previous value) and report success. -/
def stop_auto_posting (s : ManagerState) (domain : String) :
    OpResult × ManagerState :=
  match s.auto_posting_active domain with
  | none => (OpResult.error "Auto posting not active for this domain", s)
  | some _ =>
    (OpResult.success,
      { s with auto_posting_active := fun d =>
          if d = domain then some false else s.auto_posting_active d })

/-- `get_content_queue(domain)`: `self.content_queue.get(domain, [])`. -/
def get_content_queue (s : ManagerState) (domain : String) : List ContentRecord :=
  (s.content_queue domain).getD []

/-- The status dict of `get_auto_posting_status(domain)`. -/
structure PostingStatus where
  domain : String
  auto_posting_active : Bool
  queue_length : Nat
  has_thread : Bool
  deriving Repr, DecidableEq

/-- `get_auto_posting_status(domain)`. -/
def get_auto_posting_status (s : ManagerState) (domain : String) : PostingStatus where
  domain := domain
  auto_posting_active := (s.auto_posting_active domain).getD false
  queue_length := (get_content_queue s domain).length
  has_thread := s.posting_threads domain

/-- A worker loop for `domain` may exit exactly when it observes, at one
of its flag checks, that `self.auto_posting_active.get(domain, False)`
is no longer true. -/
def workerExitState (s : ManagerState) (domain : String) : ManagerState :=
  { s with workers := fun d => if d = domain then s.workers d - 1 else s.workers d }

/-- Interleaved evolution of the manager: any sequence of start calls,
stop calls, and worker-loop exits (an exit is enabled only for a spawned
worker whose domain flag currently reads false). -/
inductive ManagerStep : ManagerState → ManagerState → Prop
  | start (s : ManagerState) (domain : String) :
      ManagerStep s (start_auto_posting s domain).2
  | stop (s : ManagerState) (domain : String) :
      ManagerStep s (stop_auto_posting s domain).2
  | workerExit (s : ManagerState) (domain : String)
      (hlive : 0 < s.workers domain)
      (hflag : (s.auto_posting_active domain).getD false = false) :
      ManagerStep s (workerExitState s domain)

/-- States reachable from a fresh manager. -/
def ManagerReachable (s : ManagerState) : Prop :=
  Relation.ReflTransGen ManagerStep initManager s

/-- Guarded evolution: identical to `ManagerStep` sequences except that
`start_auto_posting` is only invoked on a domain that either has no
live worker left or whose flag is still true (so the call is the
rejected no-op).  This is the discipline under which the registry really
does keep at most one live worker per domain. -/
inductive GuardedReachable : ManagerState → Prop
  | init : GuardedReachable initManager
  | start (s : ManagerState) (domain : String) (h : GuardedReachable s)
      (hidle : s.workers domain = 0 ∨ (s.auto_posting_active domain).getD false = true) :
      GuardedReachable (start_auto_posting s domain).2
  | stop (s : ManagerState) (domain : String) (h : GuardedReachable s) :
      GuardedReachable (stop_auto_posting s domain).2
  | workerExit (s : ManagerState) (domain : String) (h : GuardedReachable s)
      (hlive : 0 < s.workers domain)
      (hflag : (s.auto_posting_active domain).getD false = false) :
      GuardedReachable (workerExitState s domain)

/-! ## Content pipeline (`generate_auto_content`) and worker loop
(`_auto_posting_worker`)

The external collaborators (`GeminiAI`, `BingImageScraper` search,
`random.choice`) are opaque to this subsystem; one cycle's worth of
their responses is packaged as a `GenOracle` input. -/

/-- The settings dict as read by the worker and the pipeline, with the
`settings.get(..., default)` defaults baked in. -/
structure AutoSettings where
  interval_hours : Nat := 6
  max_posts_per_day : Nat := 4
  category : String := "general"
  article_length : Nat := 1000
  images_per_article : Nat := 3
  deriving Repr, DecidableEq

/-- The body text and meta description returned by
`generate_article_content` on success. -/
structure Article where
  content : String
  meta_description : String
  deriving Repr, DecidableEq

/-- One cycle's worth of external-collaborator responses. -/
structure GenOracle where
  pick : Nat
  titles : List String
  gen_keywords : List String
  article : Except String Article
  images : List BingImage
  alt_text : String

/-- Result dict of `generate_auto_content`: either
`{'success': True, 'title': ...}` or `{'error': msg}`. -/
inductive GenResult where
  | success : String → GenResult
  | error : String → GenResult
  deriving Repr, DecidableEq

/-- Whether `result.get('success')` is truthy. -/
def GenResult.isSuccess : GenResult → Bool
  | success _ => true
  | error _ => false

/-- `self.trending_topics`. -/
def trending_topics : List String :=
  ["artificial intelligence trends", "sustainable living tips",
   "remote work productivity", "healthy lifestyle habits",
   "digital marketing strategies", "blockchain technology",
   "mental health awareness", "personal finance management",
   "social media marketing", "web development trends"]

/-- `self.micro_niches`, as a lookup keyed by lowercased category. -/
def micro_niches (category : String) : Option (List String) :=
  if category = "technology" then
    some ["AI automation tools", "cybersecurity best practices",
          "cloud computing solutions", "mobile app development",
          "data analytics insights"]
  else if category = "health" then
    some ["nutrition for busy professionals", "home workout routines",
          "stress management techniques", "sleep optimization tips",
          "natural remedy guides"]
  else if category = "business" then
    some ["small business marketing", "entrepreneur success stories",
          "freelancing strategies", "startup funding tips",
          "productivity hacks"]
  else if category = "lifestyle" then
    some ["minimalist living", "sustainable fashion", "home organization",
          "travel planning tips", "cooking healthy meals"]
  else none

/-- `get_trending_keyword(category)`: category-specific topics when the
lowercased category is a known niche, else the generic trending list;
`random.choice` is modelled by the oracle-supplied index `pick`.  The
`except` fallback string is the `getD` default (unreachable: every topic
table is non-empty). -/
def get_trending_keyword (category : String) (pick : Nat) : String :=
  let topics := (micro_niches category.toLower).getD trending_topics
  topics.getD (pick % topics.length) "trending topics"

/-- `generate_auto_content(domain, category, settings)` acting on the
manager's `content_queue` dict.  Returns the result dict and the queue
dict after the call.  The assembled `complete_article` keeps the scalar
fields; the processed image payload and schema markup do not affect
control flow or queue shape and are not tracked. -/
def generate_auto_content (queues : String → Option (List ContentRecord))
    (domain category : String) (o : GenOracle) :
    GenResult × (String → Option (List ContentRecord)) :=
  let keyword := get_trending_keyword category o.pick
  match o.titles with
  | [] => (GenResult.error "Failed to generate titles", queues)
  | title :: _ =>
    let keywords := if o.gen_keywords.isEmpty then [keyword] else o.gen_keywords
    match o.article with
    | Except.error e => (GenResult.error e, queues)
    | Except.ok art =>
      let record : ContentRecord :=
        { title := title
          content := art.content
          meta_description := art.meta_description
          keywords := keywords
          category := category
          domain := domain
          auto_generated := true }
      (GenResult.success title,
        fun d => if d = domain then some ((queues d).getD [] ++ [record])
                 else queues d)

/-- The loop-local state of `_auto_posting_worker` together with the
shared `content_queue` dict it appends to through
`generate_auto_content`. -/
structure WorkerState where
  posts_today : Nat
  last_post_date : Option Nat
  queues : String → Option (List ContentRecord)

/-- What one loop iteration observes from outside: the current calendar
date and the collaborator responses. -/
structure CycleInput where
  date : Nat
  oracle : GenOracle

/-- The daily-counter reset at the top of the loop body:
`if last_post_date != current_date: posts_today = 0; ...`. -/
def resetDay (s : WorkerState) (date : Nat) : WorkerState :=
  if s.last_post_date = some date then s
  else { s with posts_today := 0, last_post_date := some date }

/-- One full iteration of the `while` body of `_auto_posting_worker`:
reset the daily counter on a date change, then either back off because
the daily cap is reached (state unchanged, nothing generated), or run
`generate_auto_content` and bump `posts_today` exactly when it reports
success. -/
def workerCycle (domain : String) (st : AutoSettings) (s : WorkerState)
    (inp : CycleInput) : WorkerState :=
  let s1 := resetDay s inp.date
  if st.max_posts_per_day ≤ s1.posts_today then s1
  else
    let g := generate_auto_content s1.queues domain st.category inp.oracle
    let s2 := { s1 with queues := g.2 }
    if g.1.isSuccess then { s2 with posts_today := s2.posts_today + 1 } else s2

/-- Any finite run of the worker loop. -/
def workerRun (domain : String) (st : AutoSettings) (s : WorkerState) :
    List CycleInput → WorkerState
  | [] => s
  | inp :: rest => workerRun domain st (workerCycle domain st s inp) rest

/-- Observable control events of one loop iteration: reads of the
cancellation flag (`self.auto_posting_active.get(domain, False)`) and
uninterrupted `time.sleep` blocks, in program order. -/
inductive LoopEvent where
  | flagCheck : LoopEvent
  | sleep : Nat → LoopEvent
  deriving Repr, DecidableEq

/-- The control events of one iteration of `_auto_posting_worker`: the
`while` condition reads the flag once, then the body sleeps once —
3600 s when the daily cap is reached, else
`posting_interval * 3600` seconds after the generation attempt. -/
def cycleEvents (st : AutoSettings) (s : WorkerState) (inp : CycleInput) :
    List LoopEvent :=
  let s1 := resetDay s inp.date
  if st.max_posts_per_day ≤ s1.posts_today then
    [LoopEvent.flagCheck, LoopEvent.sleep 3600]
  else
    [LoopEvent.flagCheck, LoopEvent.sleep (st.interval_hours * 3600)]

/-! ## Concrete instances exercised by the witness and counterexample
theorems -/

/-- A scraper with three configured keys, an (adjusted) hourly ceiling
of 5, and four in-window requests already recorded on the first key. -/
def demoScraper : BingImageScraper.ScraperState where
  api_keys := ["key1", "key2", "key3"]
  current_key_index := 0
  request_counts := fun k => if k = "key1" then [1, 2, 3, 4] else []
  max_requests_per_hour := 5

/-- Manager after `start_auto_posting("a.com", ...)`. -/
def mgrStarted : ManagerState := (start_auto_posting initManager "a.com").2

/-- Manager after a subsequent `stop_auto_posting("a.com")`. -/
def mgrStopped : ManagerState := (stop_auto_posting mgrStarted "a.com").2

/-- Manager after calling `start_auto_posting("a.com", ...)` again while
the first worker loop has not yet observed the false flag. -/
def mgrRestarted : ManagerState := (start_auto_posting mgrStopped "a.com").2

def imgA : BingImage :=
  { url := "http://x/a.jpg", name := "modern ai tools".toList, width := 1200,
    height := 600, encoding_format := "jpeg".toList, is_family_friendly := true }

def imgB : BingImage :=
  { url := "http://x/b.png", name := "skyline".toList, width := 400,
    height := 640, encoding_format := "png".toList, is_family_friendly := true }

/-- Shares its URL with `imgA`. -/
def imgC : BingImage :=
  { url := "http://x/a.jpg", name := "ai duplicate".toList, width := 900,
    height := 500, encoding_format := "webp".toList, is_family_friendly := false }

/-- An item whose `url` field is the empty (falsy) string. -/
def emptyUrlImg : BingImage :=
  { url := "", name := "no url".toList, width := 100, height := 80,
    encoding_format := "gif".toList, is_family_friendly := true }

/-- Collaborator responses for one fully successful generation cycle. -/
def demoOracleOk : GenOracle where
  pick := 0
  titles := ["Ten AI Trends"]
  gen_keywords := ["ai", "trends"]
  article := Except.ok { content := "body", meta_description := "meta" }
  images := [imgA]
  alt_text := "alt"

/-- Same cycle but the title collaborator returns an empty list. -/
def demoOracleNoTitles : GenOracle := { demoOracleOk with titles := [] }

/-- The loop-local state at worker start: zero posts, no reset date yet,
no queue entries. -/
def initialWorker : WorkerState where
  posts_today := 0
  last_post_date := none
  queues := fun _ => none

/-- The default settings snapshot (interval 6 h, cap 4/day). -/
def demoSettings : AutoSettings := {}

def demoCycle : CycleInput := { date := 20250101, oracle := demoOracleOk }

def demoCycleNoTitles : CycleInput :=
  { date := 20250101, oracle := demoOracleNoTitles }

/-! ## Theorems -/

/-- Helper: the items of a fixed relevance-score class are pairwise
related by `scoreGE` (both directions hold on ties). -/
theorem pairwiseScoreGEFilter (l : List BingImage) (v : Nat) :
    (l.filter (fun i => BingImageScraper.relKey i == v)).Pairwise
      BingImageScraper.scoreGE := by
  apply List.pairwise_of_forall_mem_list
  intro a ha b hb
  have ha2 := (List.mem_filter.mp ha).2
  have hb2 := (List.mem_filter.mp hb).2
  simp only [beq_iff_eq] at ha2 hb2
  show BingImageScraper.relKey b ≤ BingImageScraper.relKey a
  rw [ha2, hb2]

/-- Helper: stability of the descending sort, phrased per score class:
restricting the sorted output to any fixed score keeps exactly the input
items of that score, in their input order. -/
theorem insertionSortScoreFilter (l : List BingImage) (v : Nat) :
    (List.insertionSort BingImageScraper.scoreGE l).filter
        (fun i => BingImageScraper.relKey i == v)
      = l.filter (fun i => BingImageScraper.relKey i == v) := by
  have hsub : List.Sublist (l.filter (fun i => BingImageScraper.relKey i == v))
      (List.insertionSort BingImageScraper.scoreGE l) :=
    List.sublist_insertionSort (pairwiseScoreGEFilter l v) (List.filter_sublist l)
  have h1 : List.Sublist (l.filter (fun i => BingImageScraper.relKey i == v))
      ((List.insertionSort BingImageScraper.scoreGE l).filter
          (fun i => BingImageScraper.relKey i == v)) := by
    have h2 := hsub.filter (fun i => BingImageScraper.relKey i == v)
    rwa [List.filter_filter, show
        (fun a => (BingImageScraper.relKey a == v) && (BingImageScraper.relKey a == v))
          = (fun a => BingImageScraper.relKey a == v) from
      funext fun a => Bool.and_self _] at h2
  have hlen : ((List.insertionSort BingImageScraper.scoreGE l).filter
      (fun i => BingImageScraper.relKey i == v)).length
        = (l.filter (fun i => BingImageScraper.relKey i == v)).length :=
    ((List.perm_insertionSort BingImageScraper.scoreGE l).filter _).length_eq
  exact (h1.eq_of_length hlen.symm).symm

/-- C7: `score_images` gives every candidate the score
10·[keyword in name] + 5·[landscape] + 5·[width ≥ 800] +
3·[format allow-listed] + 2·[family friendly] and returns the (scored)
input re-sorted descending by that score, ties keeping input order
(stable sort, stated per score class). -/
theorem scoreImagesRanking (images : List BingImage) (keyword : List Char) :
    (∀ img ∈ (BingImageScraper.score_images images keyword).1,
        img.relevance_score = some (
          (if List.IsInfix (lowerChars keyword) (lowerChars img.name) then 10 else 0) +
          (if img.height < img.width then 5 else 0) +
          (if 800 ≤ img.width then 5 else 0) +
          (if lowerChars img.encoding_format ∈ modernFormats then 3 else 0) +
          (if img.is_family_friendly then 2 else 0))) ∧
    List.Sorted BingImageScraper.scoreGE
      (BingImageScraper.score_images images keyword).1 ∧
    (BingImageScraper.score_images images keyword).1.Perm
      (images.map (BingImageScraper.setRelevanceScore keyword)) ∧
    ∀ v : Nat,
      (BingImageScraper.score_images images keyword).1.filter
          (fun i => BingImageScraper.relKey i == v)
        = (images.map (BingImageScraper.setRelevanceScore keyword)).filter
            (fun i => BingImageScraper.relKey i == v) := by
  refine ⟨?_, ?_, ?_, ?_⟩
  · intro img hmem
    have hmem2 : img ∈ images.map (BingImageScraper.setRelevanceScore keyword) :=
      (List.mem_insertionSort (r := BingImageScraper.scoreGE)).mp hmem
    obtain ⟨x, _, rfl⟩ := List.mem_map.mp hmem2
    rfl
  · exact List.sorted_insertionSort BingImageScraper.scoreGE _
  · exact List.perm_insertionSort BingImageScraper.scoreGE _
  · intro v
    exact insertionSortScoreFilter (images.map (BingImageScraper.setRelevanceScore keyword)) v

/-- Witness for C7 at a concrete input: the record for `imgA` carries
score 25 (all five criteria hit) in the returned list. -/
theorem scoreImagesRankingWitness :
    (BingImageScraper.setRelevanceScore "ai".toList imgA).relevance_score
      = some 25 := by
  have h := (scoreImagesRanking [imgB, imgA, imgC] "ai".toList).1
    (BingImageScraper.setRelevanceScore "ai".toList imgA) (by decide)
  rw [h]
  decide

/-- C8 counterexample: `score_images` is not free of side effects on its
input — the loop executes `image['relevance_score'] = score` on every
record of the caller's list, so the records differ after the call
(here: `imgA` starts with no `relevance_score` and ends with one). -/
theorem scoreImagesMutatesInputCounterexample :
    ¬ (∀ (images : List BingImage) (keyword : List Char),
        (BingImageScraper.score_images images keyword).2 = images) := by
  intro h
  have h2 := h [imgA] "ai".toList
  exact absurd h2 (by decide)

/-- C8 amended: `score_images` is deterministic — identical inputs give
identical outputs in identical order — but it does mutate the input
records: after the call each input record carries the computed
`relevance_score`; all other fields are left unchanged. -/
theorem scoreImagesDeterministicWritesScores
    (images l2 : List BingImage) (keyword k2 : List Char)
    (h1 : images = l2) (h2 : keyword = k2) :
    BingImageScraper.score_images images keyword
        = BingImageScraper.score_images l2 k2 ∧
    (BingImageScraper.score_images images keyword).2
        = images.map (BingImageScraper.setRelevanceScore keyword) ∧
    ∀ img : BingImage,
      (BingImageScraper.setRelevanceScore keyword img).relevance_score
          = some (BingImageScraper.imageScore keyword img) ∧
      (BingImageScraper.setRelevanceScore keyword img).url = img.url ∧
      (BingImageScraper.setRelevanceScore keyword img).name = img.name ∧
      (BingImageScraper.setRelevanceScore keyword img).width = img.width ∧
      (BingImageScraper.setRelevanceScore keyword img).height = img.height ∧
      (BingImageScraper.setRelevanceScore keyword img).encoding_format
          = img.encoding_format ∧
      (BingImageScraper.setRelevanceScore keyword img).is_family_friendly
          = img.is_family_friendly := by
  subst h1
  subst h2
  exact ⟨rfl, rfl, fun img => ⟨rfl, rfl, rfl, rfl, rfl, rfl, rfl⟩⟩

/-- Witness for the amended C8 at a concrete input. -/
theorem scoreImagesDeterministicWitness :
    (BingImageScraper.score_images [imgA, imgB] "ai".toList).2
      = [imgA, imgB].map (BingImageScraper.setRelevanceScore "ai".toList) :=
  (scoreImagesDeterministicWritesScores [imgA, imgB] [imgA, imgB]
    "ai".toList "ai".toList rfl rfl).2.1

/-- Helper: everything the scraper dedup keeps has a URL outside the
seen set. -/
theorem scraperDedupAuxNotSeen (seen : List String) (l : List BingImage) :
    ∀ x ∈ BingImageScraper.removeDuplicatesAux seen l, x.url ∉ seen := by
  induction l generalizing seen with
  | nil =>
    intro x hx
    simp [BingImageScraper.removeDuplicatesAux] at hx
  | cons img rest ih =>
    intro x hx
    unfold BingImageScraper.removeDuplicatesAux at hx
    by_cases hmem : img.url ∈ seen
    · rw [if_pos hmem] at hx
      exact ih seen x hx
    · rw [if_neg hmem] at hx
      rcases List.mem_cons.mp hx with rfl | hx2
      · exact hmem
      · intro hcon
        exact ih (img.url :: seen) x hx2 (List.mem_cons_of_mem _ hcon)

/-- Helper: the scraper dedup output is a sublist of its input. -/
theorem scraperDedupAuxSublist (seen : List String) (l : List BingImage) :
    List.Sublist (BingImageScraper.removeDuplicatesAux seen l) l := by
  induction l generalizing seen with
  | nil => exact List.Sublist.refl _
  | cons img rest ih =>
    unfold BingImageScraper.removeDuplicatesAux
    by_cases hmem : img.url ∈ seen
    · rw [if_pos hmem]
      exact (ih seen).cons img
    · rw [if_neg hmem]
      exact (ih (img.url :: seen)).cons₂ img

/-- Helper: the URLs of the scraper dedup output are pairwise
distinct. -/
theorem scraperDedupAuxNodup (seen : List String) (l : List BingImage) :
    ((BingImageScraper.removeDuplicatesAux seen l).map (fun i => i.url)).Nodup := by
  induction l generalizing seen with
  | nil => simp [BingImageScraper.removeDuplicatesAux]
  | cons img rest ih =>
    unfold BingImageScraper.removeDuplicatesAux
    by_cases hmem : img.url ∈ seen
    · rw [if_pos hmem]
      exact ih seen
    · rw [if_neg hmem]
      rw [List.map_cons, List.nodup_cons]
      refine ⟨?_, ih (img.url :: seen)⟩
      intro hcon
      obtain ⟨y, hy, hyurl⟩ := List.mem_map.mp hcon
      apply scraperDedupAuxNotSeen (img.url :: seen) rest y hy
      rw [hyurl]
      exact List.mem_cons_self _ _

/-- Helper: on a list with pairwise-distinct URLs, all outside the seen
set, the scraper dedup is the identity. -/
theorem scraperDedupAuxEqSelf (seen : List String) (l : List BingImage)
    (hnd : (l.map (fun i => i.url)).Nodup) (hdisj : ∀ x ∈ l, x.url ∉ seen) :
    BingImageScraper.removeDuplicatesAux seen l = l := by
  induction l generalizing seen with
  | nil => rfl
  | cons img rest ih =>
    rw [List.map_cons, List.nodup_cons] at hnd
    obtain ⟨hhead, htail⟩ := hnd
    unfold BingImageScraper.removeDuplicatesAux
    rw [if_neg (hdisj img (List.mem_cons_self _ _))]
    congr 1
    refine ih (img.url :: seen) htail ?_
    intro x hx hcon
    rcases List.mem_cons.mp hcon with heq | hmem
    · exact hhead (heq ▸ List.mem_map.mpr ⟨x, hx, rfl⟩)
    · exact hdisj x (List.mem_cons_of_mem _ hx) hmem

/-- Helper: every input URL outside the seen set survives dedup. -/
theorem scraperDedupAuxCovers (seen : List String) (l : List BingImage) :
    ∀ x ∈ l, x.url ∉ seen →
      ∃ y ∈ BingImageScraper.removeDuplicatesAux seen l, y.url = x.url := by
  induction l generalizing seen with
  | nil =>
    intro x hx
    exact absurd hx (List.not_mem_nil x)
  | cons img rest ih =>
    intro x hx hxs
    unfold BingImageScraper.removeDuplicatesAux
    by_cases hmem : img.url ∈ seen
    · rw [if_pos hmem]
      rcases List.mem_cons.mp hx with rfl | hx2
      · exact absurd hmem hxs
      · exact ih seen x hx2 hxs
    · rw [if_neg hmem]
      rcases List.mem_cons.mp hx with rfl | hx2
      · exact ⟨x, List.mem_cons_self _ _, rfl⟩
      · by_cases hurl : x.url = img.url
        · exact ⟨img, List.mem_cons_self _ _, hurl.symm⟩
        · obtain ⟨y, hy, hyu⟩ := ih (img.url :: seen) x hx2 (by
            intro hcon
            rcases List.mem_cons.mp hcon with h | h
            · exact hurl h
            · exact hxs h)
          exact ⟨y, List.mem_cons_of_mem _ hy, hyu⟩

/-- Helper: whatever dedup keeps is the first input item carrying its
URL. -/
theorem scraperDedupAuxFindFirst (seen : List String) (l : List BingImage) :
    ∀ y ∈ BingImageScraper.removeDuplicatesAux seen l,
      l.find? (fun i => i.url == y.url) = some y := by
  induction l generalizing seen with
  | nil =>
    intro y hy
    exact absurd hy (List.not_mem_nil y)
  | cons img rest ih =>
    intro y hy
    unfold BingImageScraper.removeDuplicatesAux at hy
    by_cases hmem : img.url ∈ seen
    · rw [if_pos hmem] at hy
      have hne : ¬ (img.url == y.url) = true := by
        simp only [beq_iff_eq]
        intro heq
        exact scraperDedupAuxNotSeen seen rest y hy (heq ▸ hmem)
      rw [List.find?_cons_of_neg (p := fun i => i.url == y.url) (a := img) rest hne]
      exact ih seen y hy
    · rw [if_neg hmem] at hy
      rcases List.mem_cons.mp hy with rfl | hy2
      · rw [List.find?_cons_of_pos (p := fun i => i.url == y.url) rest (by simp)]
      · have hne : ¬ (img.url == y.url) = true := by
          simp only [beq_iff_eq]
          intro heq
          exact scraperDedupAuxNotSeen (img.url :: seen) rest y hy2
            (heq ▸ List.mem_cons_self _ _)
        rw [List.find?_cons_of_neg (p := fun i => i.url == y.url) (a := img) rest hne]
        exact ih (img.url :: seen) y hy2

/-- Helper: the search-module dedup equals the scraper dedup applied
after discarding items with a falsy (empty) URL. -/
theorem searchDedupAuxEqFilter (seen : List String) (l : List BingImage) :
    BingImageSearch.removeDuplicatesAux seen l
      = BingImageScraper.removeDuplicatesAux seen
          (l.filter (fun i => !(i.url == ""))) := by
  induction l generalizing seen with
  | nil => rfl
  | cons img rest ih =>
    unfold BingImageSearch.removeDuplicatesAux
    rw [List.filter_cons]
    by_cases hempty : img.url = ""
    · rw [if_neg (fun hc => hc.1 hempty)]
      have hcond : (!(img.url == "")) = false := by simp [hempty]
      rw [hcond]
      simp only [Bool.false_eq_true, if_false]
      exact ih seen
    · have hcond : (!(img.url == "")) = true := by simp [hempty]
      rw [hcond]
      simp only [if_true]
      by_cases hmem : img.url ∈ seen
      · rw [if_neg (fun hc => hc.2 hmem)]
        unfold BingImageScraper.removeDuplicatesAux
        rw [if_pos hmem]
        exact ih seen
      · rw [if_pos ⟨hempty, hmem⟩]
        unfold BingImageScraper.removeDuplicatesAux
        rw [if_neg hmem]
        rw [ih (img.url :: seen)]

/-- Helper: `searchDedupAuxEqFilter` at the top level. -/
theorem searchDedupEqFilter (l : List BingImage) :
    BingImageSearch.remove_duplicates l
      = BingImageScraper.remove_duplicates
          (l.filter (fun i => !(i.url == ""))) :=
  searchDedupAuxEqFilter [] l

/-- C9 counterexample: the search-module `remove_duplicates` does not
keep the first occurrence of every URL — an item whose URL is the empty
string is dropped even on first occurrence. -/
theorem dedupDropsEmptyUrlCounterexample :
    ¬ (∀ (images : List BingImage) (x : BingImage), x ∈ images →
        ∃ y ∈ BingImageSearch.remove_duplicates images, y.url = x.url) := by
  intro h
  obtain ⟨y, hy, _⟩ := h [emptyUrlImg] emptyUrlImg (List.mem_cons_self _ _)
  have hnil : BingImageSearch.remove_duplicates [emptyUrlImg] = [] := by decide
  rw [hnil] at hy
  exact List.not_mem_nil y hy

/-- C9 amended: the scraper-module `remove_duplicates` keeps exactly the
first occurrence of each URL in input order and is idempotent; the
search-module variant behaves identically except that it first discards
every item whose URL is empty (so it, too, is idempotent, but it can
drop a first occurrence with an empty URL). -/
theorem dedupKeepsFirstOccurrence (images : List BingImage) :
    BingImageScraper.remove_duplicates (BingImageScraper.remove_duplicates images)
        = BingImageScraper.remove_duplicates images ∧
    List.Sublist (BingImageScraper.remove_duplicates images) images ∧
    ((BingImageScraper.remove_duplicates images).map (fun i => i.url)).Nodup ∧
    (∀ x ∈ images, ∃ y ∈ BingImageScraper.remove_duplicates images, y.url = x.url) ∧
    (∀ y ∈ BingImageScraper.remove_duplicates images,
        images.find? (fun i => i.url == y.url) = some y) ∧
    BingImageSearch.remove_duplicates images
        = BingImageScraper.remove_duplicates
            (images.filter (fun i => !(i.url == ""))) ∧
    BingImageSearch.remove_duplicates (BingImageSearch.remove_duplicates images)
        = BingImageSearch.remove_duplicates images := by
  refine ⟨?_, scraperDedupAuxSublist [] images, scraperDedupAuxNodup [] images,
    fun x hx => scraperDedupAuxCovers [] images x hx (List.not_mem_nil _),
    scraperDedupAuxFindFirst [] images,
    searchDedupAuxEqFilter [] images, ?_⟩
  · exact scraperDedupAuxEqSelf [] _ (scraperDedupAuxNodup [] images)
      (fun x _ => List.not_mem_nil _)
  · have hid : List.filter (fun i => !(i.url == ""))
        (BingImageSearch.remove_duplicates images)
          = BingImageSearch.remove_duplicates images := by
      apply List.filter_eq_self.mpr
      intro y hy
      rw [searchDedupEqFilter images] at hy
      have hmem : y ∈ images.filter (fun i => !(i.url == "")) :=
        (scraperDedupAuxSublist [] _).subset hy
      exact (List.mem_filter.mp hmem).2
    rw [searchDedupEqFilter (BingImageSearch.remove_duplicates images), hid,
      searchDedupEqFilter images]
    exact scraperDedupAuxEqSelf [] _
      (scraperDedupAuxNodup [] (images.filter (fun i => !(i.url == ""))))
      (fun x _ => List.not_mem_nil _)

/-- Witness for the amended C9: with `imgC` repeating the URL of `imgA`,
the repeated URL still has a representative in the dedup output. -/
theorem dedupKeepsFirstOccurrenceWitness :
    ∃ y ∈ BingImageScraper.remove_duplicates [imgA, imgB, imgC], y.url = imgC.url :=
  (dedupKeepsFirstOccurrence [imgA, imgB, imgC]).2.2.2.1 imgC (by decide)

/-- Helper: `check_rate_limit` computed, given the current key. -/
theorem check_rate_limit_eq (s : BingImageScraper.ScraperState) (now : Int)
    (key : String) (hkey : BingImageScraper.get_current_api_key s = some key) :
    BingImageScraper.check_rate_limit s now =
      (decide ((((s.request_counts key).filter (fun t => now - 3600 < t)).length : Int)
          ≥ s.max_requests_per_hour - 10),
       { s with request_counts := fun k =>
           if k = key then (s.request_counts key).filter (fun t => now - 3600 < t)
           else s.request_counts k }) := by
  unfold BingImageScraper.check_rate_limit
  rw [hkey]
  simp

/-- C4: whenever the trailing-60-minute request count of the currently
selected credential (after pruning) has reached the ceiling minus the
safety buffer (hard-coded 10 in the source), `search_images` advances
the round-robin cursor before the external call: the key the request
uses is the next one, the state at call time already has the advanced
cursor, and no request has been recorded yet (logs unchanged except for
pruning the old key). -/
theorem searchImagesRotatesBeforeCall (s : BingImageScraper.ScraperState)
    (now : Int) (key : String)
    (hkey : BingImageScraper.get_current_api_key s = some key)
    (hnear : (((s.request_counts key).filter (fun t => now - 3600 < t)).length : Int)
        ≥ s.max_requests_per_hour - 10) :
    (BingImageScraper.searchImagesKey s now).1
        = s.api_keys.get? ((s.current_key_index + 1) % s.api_keys.length) ∧
    (BingImageScraper.searchImagesKey s now).2.current_key_index
        = (s.current_key_index + 1) % s.api_keys.length ∧
    (BingImageScraper.searchImagesKey s now).2.request_counts key
        = (s.request_counts key).filter (fun t => now - 3600 < t) ∧
    ∀ k : String, k ≠ key →
      (BingImageScraper.searchImagesKey s now).2.request_counts k
        = s.request_counts k := by
  have hget : s.api_keys.get? s.current_key_index = some key := by
    unfold BingImageScraper.get_current_api_key at hkey
    split at hkey
    · exact absurd hkey (by simp)
    · exact hkey
  have hlt : s.current_key_index < s.api_keys.length := by
    obtain ⟨h, -⟩ := List.get?_eq_some.mp hget
    exact h
  have hpos : 0 < s.api_keys.length := Nat.lt_of_le_of_lt (Nat.zero_le _) hlt
  have hnonempty : s.api_keys.isEmpty = false := by
    cases hk : s.api_keys with
    | nil => rw [hk] at hpos; exact absurd hpos (by simp)
    | cons a l => rfl
  unfold BingImageScraper.searchImagesKey
  rw [check_rate_limit_eq s now key hkey]
  rw [decide_eq_true hnear]
  simp only [if_true]
  by_cases hlen1 : 1 < s.api_keys.length
  · simp only [BingImageScraper.rotate_api_key, BingImageScraper.get_current_api_key,
      if_pos hlen1, hnonempty]
    refine ⟨by simp, trivial, by simp, fun k hk => by simp [hk]⟩
  · have hlen : s.api_keys.length = 1 :=
      Nat.le_antisymm (Nat.not_lt.mp hlen1) hpos
    have hidx : s.current_key_index = 0 := by
      have := hlen ▸ hlt
      exact Nat.lt_one_iff.mp this
    simp only [BingImageScraper.rotate_api_key, BingImageScraper.get_current_api_key,
      if_neg hlen1, hnonempty]
    rw [hidx, hlen]
    refine ⟨by simp, rfl, by simp, fun k hk => by simp [hk]⟩

/-- Witness for C4: three keys, a ceiling of 5, four in-window requests
recorded on key 1 — the next search call uses key 2. -/
theorem searchImagesRotatesWitness :
    (BingImageScraper.searchImagesKey demoScraper 3600).1 = some "key2" := by
  have h := searchImagesRotatesBeforeCall demoScraper 3600 "key1" (by decide) (by decide)
  rw [h.1]
  decide

/-- Helper: the daily reset never raises the counter above a bound it
already satisfied. -/
theorem resetDayPostsLe (s : WorkerState) (d m : Nat)
    (h : s.posts_today ≤ m) : (resetDay s d).posts_today ≤ m := by
  unfold resetDay
  split
  · exact h
  · exact Nat.zero_le m

/-- Helper: one loop iteration preserves `posts_today ≤ cap`. -/
theorem workerCyclePostsLe (domain : String) (st : AutoSettings)
    (s : WorkerState) (inp : CycleInput)
    (h : s.posts_today ≤ st.max_posts_per_day) :
    (workerCycle domain st s inp).posts_today ≤ st.max_posts_per_day := by
  have h1 := resetDayPostsLe s inp.date st.max_posts_per_day h
  simp only [workerCycle]
  split
  · exact h1
  · rename_i hcap
    split
    · exact Nat.succ_le_of_lt (Nat.lt_of_not_le hcap)
    · exact h1

/-- C1: starting at or below the cap, `posts_today` stays at or below
`max_posts_per_day` over any run; when the (date-reset) counter has
reached the cap the cycle is a no-op returning the reset state itself
(one-hour backoff, nothing generated, no queue append); and the counter
moves only by a single increment, which happens only from strictly
below the cap. -/
theorem postsTodayNeverExceedsCap (domain : String) (st : AutoSettings)
    (s : WorkerState) (inputs : List CycleInput)
    (h : s.posts_today ≤ st.max_posts_per_day) :
    (workerRun domain st s inputs).posts_today ≤ st.max_posts_per_day ∧
    (∀ (s2 : WorkerState) (inp : CycleInput),
        st.max_posts_per_day ≤ (resetDay s2 inp.date).posts_today →
        workerCycle domain st s2 inp = resetDay s2 inp.date) ∧
    (∀ (s2 : WorkerState) (inp : CycleInput),
        (workerCycle domain st s2 inp).posts_today
            ≠ (resetDay s2 inp.date).posts_today →
        (resetDay s2 inp.date).posts_today < st.max_posts_per_day ∧
        (workerCycle domain st s2 inp).posts_today
            = (resetDay s2 inp.date).posts_today + 1) := by
  refine ⟨?_, ?_, ?_⟩
  · induction inputs generalizing s with
    | nil => exact h
    | cons inp rest ih =>
      exact ih (workerCycle domain st s inp)
        (workerCyclePostsLe domain st s inp h)
  · intro s2 inp hcap
    simp only [workerCycle]
    rw [if_pos hcap]
  · intro s2 inp hne
    simp only [workerCycle] at hne ⊢
    by_cases hcap : st.max_posts_per_day ≤ (resetDay s2 inp.date).posts_today
    · rw [if_pos hcap] at hne
      exact absurd rfl hne
    · rw [if_neg hcap] at hne ⊢
      cases hg : (generate_auto_content (resetDay s2 inp.date).queues domain
          st.category inp.oracle).1.isSuccess with
      | false =>
        rw [hg] at hne
        simp at hne
      | true =>
        refine ⟨Nat.lt_of_not_le hcap, ?_⟩
        simp

/-- Witness for C1 at a concrete run: one successful cycle from a fresh
worker stays within the default cap. -/
theorem postsTodayCapWitness :
    (workerRun "a.com" demoSettings initialWorker [demoCycle]).posts_today
        ≤ demoSettings.max_posts_per_day :=
  (postsTodayNeverExceedsCap "a.com" demoSettings initialWorker [demoCycle]
    (by decide)).1

/-- C3: when the title collaborator returns an empty list,
`generate_auto_content` returns the titles error, every queue is left
unchanged, and a worker cycle fed that oracle neither increments
`posts_today` (beyond the date reset) nor touches the queue dict. -/
theorem emptyTitlesNoQueueNoIncrement
    (queues : String → Option (List ContentRecord)) (domain category : String)
    (st : AutoSettings) (o : GenOracle) (htitles : o.titles = []) :
    (generate_auto_content queues domain category o).1
        = GenResult.error "Failed to generate titles" ∧
    (generate_auto_content queues domain category o).2 = queues ∧
    ∀ (s : WorkerState) (inp : CycleInput), inp.oracle = o →
      (workerCycle domain st s inp).posts_today
          = (resetDay s inp.date).posts_today ∧
      (workerCycle domain st s inp).queues = s.queues := by
  have hgen : ∀ (q : String → Option (List ContentRecord)) (cat : String),
      generate_auto_content q domain cat o
        = (GenResult.error "Failed to generate titles", q) := by
    intro q cat
    unfold generate_auto_content
    rw [htitles]
  have hqueue : ∀ (s : WorkerState) (d : Nat), (resetDay s d).queues = s.queues := by
    intro s d
    unfold resetDay
    split <;> rfl
  refine ⟨by rw [hgen], by rw [hgen], ?_⟩
  intro s inp hinp
  simp only [workerCycle]
  by_cases hcap : st.max_posts_per_day ≤ (resetDay s inp.date).posts_today
  · rw [if_pos hcap]
    exact ⟨rfl, hqueue s inp.date⟩
  · rw [if_neg hcap, hinp, hgen]
    exact ⟨rfl, hqueue s inp.date⟩

/-- Witness for C3 at a concrete input: an oracle with no titles yields
the error and a cycle that does not move the counter. -/
theorem emptyTitlesWitness :
    (generate_auto_content (fun _ => none) "a.com" "general"
        demoOracleNoTitles).1 = GenResult.error "Failed to generate titles" ∧
    (workerCycle "a.com" demoSettings initialWorker demoCycleNoTitles).posts_today
        = (resetDay initialWorker demoCycleNoTitles.date).posts_today := by
  have h := emptyTitlesNoQueueNoIncrement (fun _ => none) "a.com" "general"
    demoSettings demoOracleNoTitles rfl
  exact ⟨h.1, (h.2.2 initialWorker demoCycleNoTitles rfl).1⟩

/-- C6 counterexample: the cancellation flag is not re-checked during a
sleep — with the interval at 6 hours the loop performs a single
uninterrupted 21600-second sleep, far above a 60-second granularity, so
a stop issued mid-sleep waits out the full interval. -/
theorem sleepGranularityCounterexample :
    ¬ (∀ (st : AutoSettings) (s : WorkerState) (inp : CycleInput) (d : Nat),
        LoopEvent.sleep d ∈ cycleEvents st s inp → d ≤ 60) := by
  intro h
  have h2 := h demoSettings initialWorker demoCycle 21600 (by decide)
  exact absurd h2 (by decide)

/-- C6 amended: each loop iteration reads the cancellation flag exactly
once, at the top, and then sleeps once without further checks — 3600 s
in the daily-cap branch, otherwise the full configured interval
(`interval_hours * 3600` seconds), so a stop request issued during the
sleep is observed only at the next iteration boundary. -/
theorem cycleChecksFlagOnceThenSleeps (st : AutoSettings) (s : WorkerState)
    (inp : CycleInput) :
    cycleEvents st s inp = [LoopEvent.flagCheck, LoopEvent.sleep 3600] ∨
    cycleEvents st s inp
      = [LoopEvent.flagCheck, LoopEvent.sleep (st.interval_hours * 3600)] := by
  simp only [cycleEvents]
  split
  · exact Or.inl rfl
  · exact Or.inr rfl

/-- Helper: under the guarded discipline at most one worker loop is ever
live per domain. -/
theorem guardedWorkersLe (s : ManagerState) (h : GuardedReachable s) :
    ∀ d : String, s.workers d ≤ 1 := by
  induction h with
  | init =>
    intro d
    exact Nat.zero_le 1
  | start s2 domain hg hidle ih =>
    intro d
    simp only [start_auto_posting]
    by_cases hflag : (s2.auto_posting_active domain).getD false = true
    · rw [if_pos hflag]
      exact ih d
    · rw [if_neg hflag]
      show (if d = domain then s2.workers d + 1 else s2.workers d) ≤ 1
      by_cases hd : d = domain
      · rcases hidle with h0 | htrue
        · rw [if_pos hd, hd, h0]
        · exact absurd htrue hflag
      · rw [if_neg hd]
        exact ih d
  | stop s2 domain hg ih =>
    intro d
    simp only [stop_auto_posting]
    split
    · exact ih d
    · exact ih d
  | workerExit s2 domain hg hlive hflag ih =>
    intro d
    show (if d = domain then s2.workers d - 1 else s2.workers d) ≤ 1
    by_cases hd : d = domain
    · rw [if_pos hd]
      exact Nat.le_trans (Nat.sub_le _ _) (ih d)
    · rw [if_neg hd]
      exact ih d

/-- C2 counterexample: "at most one running scheduler per domain at any
time" fails — after start, stop, and an immediate second start (the
first worker loop not yet having observed the false flag), two live
worker loops exist for the same domain, and both now see a true flag. -/
theorem singleWorkerCounterexample :
    ¬ (∀ s : ManagerState, ManagerReachable s → ∀ domain : String,
        s.workers domain ≤ 1) := by
  intro h
  have t1 : ManagerStep initManager mgrStarted :=
    ManagerStep.start initManager "a.com"
  have t2 : ManagerStep mgrStarted mgrStopped :=
    ManagerStep.stop mgrStarted "a.com"
  have t3 : ManagerStep mgrStopped mgrRestarted :=
    ManagerStep.start mgrStopped "a.com"
  have hr : ManagerReachable mgrRestarted :=
    Relation.ReflTransGen.tail (Relation.ReflTransGen.tail
      (Relation.ReflTransGen.tail Relation.ReflTransGen.refl t1) t2) t3
  exact absurd (h mgrRestarted hr "a.com") (by decide)

/-- C2 amended: `start_auto_posting` rejects with the already-active
error, spawning nothing, when the flag is true; otherwise it sets the
flag, spawns exactly one new worker loop, and succeeds.  The at-most-one
invariant holds only under the guarded discipline in which a domain is
never restarted while its previous worker loop is still live. -/
theorem startRejectsActiveSpawnsOne (s : ManagerState) (domain : String) :
    ((s.auto_posting_active domain).getD false = true →
        start_auto_posting s domain
          = (OpResult.error "Auto posting already active for this domain", s)) ∧
    ((s.auto_posting_active domain).getD false = false →
        (start_auto_posting s domain).1 = OpResult.success ∧
        (start_auto_posting s domain).2.workers domain = s.workers domain + 1 ∧
        (start_auto_posting s domain).2.auto_posting_active domain = some true ∧
        ∀ d2 : String, d2 ≠ domain →
          (start_auto_posting s domain).2.workers d2 = s.workers d2) ∧
    ∀ s2 : ManagerState, GuardedReachable s2 → ∀ d : String, s2.workers d ≤ 1 := by
  refine ⟨?_, ?_, guardedWorkersLe⟩
  · intro hflag
    simp only [start_auto_posting]
    rw [if_pos hflag]
  · intro hflag
    have hneg : ¬ ((s.auto_posting_active domain).getD false = true) := by
      rw [hflag]
      exact Bool.false_ne_true
    simp only [start_auto_posting]
    rw [if_neg hneg]
    refine ⟨rfl, ?_, ?_, ?_⟩
    · show (if domain = domain then s.workers domain + 1 else s.workers domain)
          = s.workers domain + 1
      rw [if_pos rfl]
    · show (if domain = domain then some true else s.auto_posting_active domain)
          = some true
      rw [if_pos rfl]
    · intro d2 hd2
      show (if d2 = domain then s.workers d2 + 1 else s.workers d2) = s.workers d2
      rw [if_neg hd2]

/-- Witness for the amended C2 at concrete states. -/
theorem startRejectsActiveWitness :
    (start_auto_posting mgrStarted "a.com").1
        = OpResult.error "Auto posting already active for this domain" ∧
    (start_auto_posting initManager "a.com").2.workers "a.com"
        = initManager.workers "a.com" + 1 ∧
    initManager.workers "a.com" ≤ 1 := by
  refine ⟨?_, ?_, ?_⟩
  · rw [(startRejectsActiveSpawnsOne mgrStarted "a.com").1 (by decide)]
  · exact ((startRejectsActiveSpawnsOne initManager "a.com").2.1 (by decide)).2.1
  · exact (startRejectsActiveSpawnsOne initManager "a.com").2.2 initManager
      GuardedReachable.init "a.com"

/-- C5 counterexample: stopping an already-stopped domain does not fail
— after start then stop, a second `stop_auto_posting` still returns
success even though no running scheduler was stopped. -/
theorem stopAlreadyStoppedCounterexample :
    ¬ (∀ (s : ManagerState) (domain : String),
        (stop_auto_posting s domain).1 = OpResult.success →
        s.auto_posting_active domain = some true) := by
  intro h
  have h2 := h mgrStopped "a.com" (by decide)
  exact absurd h2 (by decide)

/-- C5 amended: `stop_auto_posting` fails with the not-active error
exactly when the domain was never registered; for any registered domain
— running or already stopped — it sets the flag to false and returns
success. -/
theorem stopFailsOnlyWhenUnregistered (s : ManagerState) (domain : String) :
    (s.auto_posting_active domain = none →
        stop_auto_posting s domain
          = (OpResult.error "Auto posting not active for this domain", s)) ∧
    ∀ b : Bool, s.auto_posting_active domain = some b →
      (stop_auto_posting s domain).1 = OpResult.success ∧
      (stop_auto_posting s domain).2.auto_posting_active domain = some false := by
  constructor
  · intro hnone
    simp only [stop_auto_posting]
    rw [hnone]
  · intro b hb
    simp only [stop_auto_posting]
    rw [hb]
    refine ⟨rfl, ?_⟩
    show (if domain = domain then some false else s.auto_posting_active domain)
        = some false
    rw [if_pos rfl]

/-- Witness for the amended C5 at concrete states. -/
theorem stopFailsOnlyWhenUnregisteredWitness :
    (stop_auto_posting initManager "a.com").1
        = OpResult.error "Auto posting not active for this domain" ∧
    (stop_auto_posting mgrStopped "a.com").1 = OpResult.success := by
  constructor
  · rw [(stopFailsOnlyWhenUnregistered initManager "a.com").1 rfl]
  · exact ((stopFailsOnlyWhenUnregistered mgrStopped "a.com").2 false (by decide)).1

/-- C10: the read accessors treat a never-started, never-queued domain
as a plain inactive domain: the status reports an inactive flag and a
zero queue length, the queue read returns the empty list, and on these
observables the unknown domain is indistinguishable from a registered
inactive domain with an empty queue. -/
theorem unknownDomainReadsAsInactive (s : ManagerState) (domain : String)
    (hflag : s.auto_posting_active domain = none)
    (hqueue : s.content_queue domain = none) :
    (get_auto_posting_status s domain).auto_posting_active = false ∧
    (get_auto_posting_status s domain).queue_length = 0 ∧
    get_content_queue s domain = [] ∧
    ∀ d2 : String, s.auto_posting_active d2 = some false →
      get_content_queue s d2 = [] →
      (get_auto_posting_status s domain).auto_posting_active
          = (get_auto_posting_status s d2).auto_posting_active ∧
      (get_auto_posting_status s domain).queue_length
          = (get_auto_posting_status s d2).queue_length ∧
      get_content_queue s domain = get_content_queue s d2 := by
  have hq : get_content_queue s domain = [] := by
    unfold get_content_queue
    rw [hqueue]
    rfl
  refine ⟨?_, ?_, hq, ?_⟩
  · show (s.auto_posting_active domain).getD false = false
    rw [hflag]
    rfl
  · show (get_content_queue s domain).length = 0
    rw [hq]
    rfl
  · intro d2 h2flag h2q
    refine ⟨?_, ?_, ?_⟩
    · show (s.auto_posting_active domain).getD false
          = (s.auto_posting_active d2).getD false
      rw [hflag, h2flag]
      rfl
    · show (get_content_queue s domain).length = (get_content_queue s d2).length
      rw [hq, h2q]
    · rw [hq, h2q]

/-- Witness for C10: in the started-then-stopped manager, the unknown
domain `b.com` reads like the registered, inactive, empty-queue
`a.com`. -/
theorem unknownDomainReadsWitness :
    (get_auto_posting_status mgrStopped "b.com").auto_posting_active = false ∧
    (get_auto_posting_status mgrStopped "b.com").queue_length
        = (get_auto_posting_status mgrStopped "a.com").queue_length := by
  have h := unknownDomainReadsAsInactive mgrStopped "b.com" (by decide) (by decide)
  exact ⟨h.1, (h.2.2.2 "a.com" (by decide) (by decide)).2.1⟩

end AutoWebBuilder
